import Mathlib

/-!
Verification of the kernel communication layer of `vscode-jupyter-console`
(`src/kernelClient.ts`, `src/kernelManager.ts`) against its specification.

The TypeScript code is shallowly embedded: pure message construction becomes
Lean functions, the stateful callback registries and timer bookkeeping become
explicit state passing with step functions, and the asynchronous event
processing (iopub receive loop, execution timeout, interrupt-check timers)
becomes a transition system over explicit action lists.  The HMAC primitive
itself lives in Node's `crypto` module, outside this repository, so the
functions that use it are parametric in an abstract keyed-hash primitive
`prim : algo → key → data → hexDigest`; everything the repository itself
computes (accumulation order, framing, field serialization) is modelled
concretely.
-/

/-! ## JSON values and `JSON.stringify` -/

/-- A hexadecimal digit character, lower case, as produced by JS `\u00XX`
escapes. -/
def hexDigitChar (n : Nat) : Char :=
  if n < 10 then Char.ofNat (48 + n) else Char.ofNat (87 + n)

/-- Escaping of a single character inside a JSON string literal, as
`JSON.stringify` performs it. -/
def jsonEscapeChar (c : Char) : String :=
  if c = '"' then "\\\""
  else if c = '\\' then "\\\\"
  else if c = '\n' then "\\n"
  else if c = '\r' then "\\r"
  else if c = '\t' then "\\t"
  else if c.toNat < 32 then
    "\\u00" ++ String.singleton (hexDigitChar (c.toNat / 16))
      ++ String.singleton (hexDigitChar (c.toNat % 16))
  else String.singleton c

/-- Escape a whole string for inclusion in a JSON document. -/
def jsonEscape (s : String) : String :=
  String.join (s.data.map jsonEscapeChar)

/-- A JSON string literal, with quotes. -/
def jsonQuote (s : String) : String :=
  "\"" ++ jsonEscape s ++ "\""

/-- JSON values, as manipulated by the client (`JSON.parse` results and the
objects handed to `JSON.stringify`).  Numbers in the connection descriptors
and message payloads of this protocol are integers. -/
inductive Json where
  | str (s : String)
  | num (n : Int)
  | bool (b : Bool)
  | null
  | arr (items : List Json)
  | obj (fields : List (String × Json))

mutual

/-- Source `JSON.stringify` on a JSON value (object keys in insertion order, as in
JS). -/
def Json.stringify : Json → String
  | Json.str s => jsonQuote s
  | Json.num n => toString n
  | Json.bool b => if b then "true" else "false"
  | Json.null => "null"
  | Json.arr items => "[" ++ Json.stringifyItems items ++ "]"
  | Json.obj fields => "\x7b" ++ Json.stringifyFields fields ++ "\x7d"

/-- Comma-separated serialization of array elements. -/
def Json.stringifyItems : List Json → String
  | [] => ""
  | [x] => Json.stringify x
  | x :: y :: rest => Json.stringify x ++ "," ++ Json.stringifyItems (y :: rest)

/-- Comma-separated serialization of object fields. -/
def Json.stringifyFields : List (String × Json) → String
  | [] => ""
  | [(k, v)] => jsonQuote k ++ ":" ++ Json.stringify v
  | (k, v) :: f :: rest =>
      jsonQuote k ++ ":" ++ Json.stringify v ++ "," ++ Json.stringifyFields (f :: rest)

end

/-- Field access on a parsed JSON object (`obj[field]`); `none` when the value
is not an object or the key is absent. -/
def Json.getField (j : Json) (k : String) : Option Json :=
  match j with
  | Json.obj fields => List.lookup k fields
  | _ => none

/-! ## Data model of `kernelClient.ts` -/

/-- Source `ConnectionInfo` (src/kernelClient.ts): the connection descriptor read
from the kernel's connection file. -/
structure ConnInfo where
  ip : String
  transport : String
  shell_port : Int
  iopub_port : Int
  stdin_port : Int
  control_port : Int
  hb_port : Int
  signature_scheme : String
  key : String
deriving DecidableEq, Repr

/-- The `header` of a `JupyterMessage` (src/kernelClient.ts). -/
structure MsgHeader where
  msg_id : String
  username : String
  session : String
  msg_type : String
  version : String
  date : String
deriving DecidableEq, Repr

/-- Source `JSON.stringify(msg.header)`: keys serialize in the insertion order of the
object literal built by `createMessage`. -/
def serializeHeader (h : MsgHeader) : String :=
  Json.stringify (Json.obj
    [ ("msg_id", Json.str h.msg_id),
      ("username", Json.str h.username),
      ("session", Json.str h.session),
      ("msg_type", Json.str h.msg_type),
      ("version", Json.str h.version),
      ("date", Json.str h.date) ])

/-- Source `JupyterMessage` (src/kernelClient.ts). -/
structure JupyterMessage where
  header : MsgHeader
  parent_header : Json
  metadata : Json
  content : Json

/-- Source `createMessage` (src/kernelClient.ts): fresh header around the given
content and parent header.  The fresh uuid and the timestamp are produced by
the environment, so they are arguments here. -/
def createMessage (sessionId msgId date msgType : String) (content parentHeader : Json) :
    JupyterMessage :=
  { header :=
      { msg_id := msgId,
        username := "vscode-jupyter-console",
        session := sessionId,
        msg_type := msgType,
        version := "5.3",
        date := date },
    parent_header := parentHeader,
    metadata := Json.obj [],
    content := content }

/-! ## HMAC signing (`crypto.createHmac` / `update` / `digest`)

The hash computation itself is Node's; the repository only chooses the
algorithm string, the key, and the accumulation order.  `HmacBuilder` models
the mutable hmac object: `update` appends to the accumulated byte stream and
`digestHex` applies the abstract primitive to what was accumulated. -/

/-- State of a `crypto.createHmac(algo, key)` object. -/
structure HmacBuilder where
  algo : String
  key : String
  data : String
deriving DecidableEq, Repr

/-- Source `crypto.createHmac(algo, key)`. -/
def createHmac (algo key : String) : HmacBuilder :=
  { algo := algo, key := key, data := "" }

/-- Source `hmac.update(s)`: appends to the accumulated input. -/
def HmacBuilder.update (h : HmacBuilder) (s : String) : HmacBuilder :=
  { h with data := h.data ++ s }

/-- Source `hmac.digest("hex")`, with the keyed-hash-and-hex-encode primitive
abstracted as `prim`. -/
def HmacBuilder.digestHex (prim : String → String → String → String)
    (h : HmacBuilder) : String :=
  prim h.algo h.key h.data

/-- JS `String.prototype.replace(pat, "")` with a string pattern: removes the
first occurrence only. -/
def removeFirstOcc (s pat : String) : String :=
  match s.splitOn pat with
  | [] => s
  | [_] => s
  | x :: y :: rest => x ++ String.intercalate pat (y :: rest)

/-- Source `signMessage` (src/kernelClient.ts lines 284-300): empty signature when
no connection info; otherwise an HMAC keyed by `key` with the algorithm named
by `signature_scheme` minus its `hmac-` prefix, fed the four serialized
fields by successive `update` calls. -/
def signMessage (prim : String → String → String → String)
    (connectionInfo : Option ConnInfo) (msg : JupyterMessage) : String :=
  match connectionInfo with
  | none => ""
  | some ci =>
      let hmac := createHmac (removeFirstOcc ci.signature_scheme "hmac-") ci.key
      let hmac := hmac.update (serializeHeader msg.header)
      let hmac := hmac.update (Json.stringify msg.parent_header)
      let hmac := hmac.update (Json.stringify msg.metadata)
      let hmac := hmac.update (Json.stringify msg.content)
      hmac.digestHex prim

/-- Source `sendMessage` (src/kernelClient.ts lines 328-343): the multipart frame
handed to `socket.send`, in order. -/
def sendFrame (prim : String → String → String → String)
    (connectionInfo : Option ConnInfo) (msg : JupyterMessage) : List String :=
  let signature := signMessage prim connectionInfo msg
  [ "<IDS|MSG>",
    signature,
    serializeHeader msg.header,
    Json.stringify msg.parent_header,
    Json.stringify msg.metadata,
    Json.stringify msg.content ]

/-- The signature as the specification words it: the keyed hash (algorithm
taken from `signature_scheme`, keyed by `key`) of the four JSON-serialized
fields header, parent_header, metadata, content concatenated in that fixed
order, hex-encoded (hex encoding is part of the abstract primitive, as in
`digest("hex")`). -/
def specSignature (prim : String → String → String → String)
    (ci : ConnInfo) (msg : JupyterMessage) : String :=
  prim (removeFirstOcc ci.signature_scheme "hmac-") ci.key
    (serializeHeader msg.header ++ Json.stringify msg.parent_header
      ++ Json.stringify msg.metadata ++ Json.stringify msg.content)

theorem string_empty_append (s : String) : "" ++ s = s := by
  apply String.ext
  simp [String.data_append]

/-- Claim C1: every frame the client sends has exactly six parts, in order the
delimiter `<IDS|MSG>`, the signature, then the JSON serializations of header,
parent_header, metadata and content; and the signature part equals the keyed
hash of the four serialized fields concatenated in that fixed order. -/
theorem c1_wire_frame_and_signature (prim : String → String → String → String)
    (ci : ConnInfo) (msg : JupyterMessage) :
    sendFrame prim (some ci) msg =
      [ "<IDS|MSG>",
        specSignature prim ci msg,
        serializeHeader msg.header,
        Json.stringify msg.parent_header,
        Json.stringify msg.metadata,
        Json.stringify msg.content ]
    ∧ (sendFrame prim (some ci) msg).length = 6 := by
  refine ⟨?_, rfl⟩
  simp only [sendFrame, signMessage, specSignature, createHmac, HmacBuilder.update,
    HmacBuilder.digestHex, string_empty_append, String.append_assoc]

/-! ## `executeCode` request content (src/kernelClient.ts lines 356-371) -/

/-- The `execute_request` content object built by `executeCode`:
`silent` is the negation of the `enableOutputViewer` configuration value. -/
def executeRequestContent (code : String) (enableOutputViewer : Bool) : Json :=
  Json.obj
    [ ("code", Json.str code),
      ("silent", Json.bool (!enableOutputViewer)),
      ("store_history", Json.bool false),
      ("user_expressions", Json.obj []),
      ("allow_stdin", Json.bool true),
      ("stop_on_error", Json.bool false) ]

/-- Claim C3 counterexample: the execute-request content does not carry a flag
disabling stdin prompting — `allow_stdin` is `true`, not `false`, for the
concrete request `executeCode("print(1)")` with the output viewer disabled. -/
theorem c3_counterexample :
    ¬ (Json.getField (executeRequestContent "print(1)" false) "allow_stdin"
        = some (Json.bool false))
    ∧ Json.getField (executeRequestContent "print(1)" false) "allow_stdin"
        = some (Json.bool true) := by
  refine ⟨?_, rfl⟩
  intro h
  rw [show Json.getField (executeRequestContent "print(1)" false) "allow_stdin"
        = some (Json.bool true) from rfl] at h
  injection h with h1
  injection h1 with h2
  exact Bool.noConfusion h2

/-- Claim C3 (amended): the execute-request content carries the code itself, a
silent flag that is true exactly when the output-viewer preference is false, a
flag disabling history storage by default, and a flag that ENABLES stdin
prompting (`allow_stdin: true`) by default. -/
theorem c3_execute_request_content (code : String) (enableOutputViewer : Bool) :
    Json.getField (executeRequestContent code enableOutputViewer) "code"
      = some (Json.str code)
    ∧ Json.getField (executeRequestContent code enableOutputViewer) "silent"
      = some (Json.bool (!enableOutputViewer))
    ∧ ((!enableOutputViewer) = true ↔ enableOutputViewer = false)
    ∧ Json.getField (executeRequestContent code enableOutputViewer) "store_history"
      = some (Json.bool false)
    ∧ Json.getField (executeRequestContent code enableOutputViewer) "allow_stdin"
      = some (Json.bool true) := by
  refine ⟨rfl, rfl, ?_, rfl, rfl⟩
  cases enableOutputViewer <;> simp

/-! ## The iopub receive loop and the execution timeout as a transition system

The iopub listener (src/kernelClient.ts lines 195-279, the version with the
execution timeout at lines 392-400) and the timeout callback mutate two
`Map`s keyed by `msg_id`.  The callback functions themselves are opaque
closures, so the registries are modelled by their key sets and an invocation
is modelled as an emitted event carrying the `msg_id`. -/

/-- Key sets of `outputCallbacks` and `completionCallbacks`
(src/kernelClient.ts lines 50-51). -/
structure CallbackState where
  outputKeys : List String
  completionKeys : List String
deriving DecidableEq, Repr

/-- An iopub multipart message after the three JSON parses in the listener:
the fields of `headerObj`, `parentHeaderObj` and `contentObj` that the
listener reads.  Absent object fields are `none` / compare unequal. -/
structure IopubMsg where
  msgType : String
  parentMsgId : String
  executionState : Option String
  streamText : String
  dataTextPlain : Option String
  ename : String
  evalue : String
  traceback : Option (List String)
deriving DecidableEq, Repr

/-- Observable callback invocations of the client. -/
inductive ClientEvent where
  | statusSignal (state : String)
  | outputInvoked (msgId : String) (text : String)
  | completionInvoked (msgId : String)
  | timeoutRejected (msgId : String)
deriving DecidableEq, Repr

/-- The unconditional status-callback publication at the top of the listener
body (src/kernelClient.ts lines 223-228). -/
def statusEventsFor (statusCallbackSet : Bool) (m : IopubMsg) : List ClientEvent :=
  if m.msgType = "status" ∧ statusCallbackSet = true
      ∧ (m.executionState = some "busy" ∨ m.executionState = some "idle")
  then [ClientEvent.statusSignal (m.executionState.getD "")] else []

/-- The error text built for an `error` message (src/kernelClient.ts lines
247-253). -/
def errorOutputText (m : IopubMsg) : String :=
  let tb := match m.traceback with
    | some lines => String.intercalate "\n" lines
    | none => ""
  "Error: " ++ m.ename ++ ": " ++ m.evalue ++ "\n" ++ tb ++ "\n"

/-- One iteration of the iopub listener body (src/kernelClient.ts lines
216-267): status publication, then dispatch on the output callback registered
under the message's `parent_header.msg_id`; a status-idle message with a
registered output callback invokes and removes the completion callback (when
present) and removes the output callback. -/
def handleIopub (statusCallbackSet : Bool) (st : CallbackState) (m : IopubMsg) :
    CallbackState × List ClientEvent :=
  let statusEvents := statusEventsFor statusCallbackSet m
  if m.parentMsgId ∈ st.outputKeys then
    if m.msgType = "stream" then
      (st, statusEvents ++ [ClientEvent.outputInvoked m.parentMsgId m.streamText])
    else if m.msgType = "execute_result" ∨ m.msgType = "display_data" then
      (st, statusEvents ++ Option.elim m.dataTextPlain []
        (fun t => [ClientEvent.outputInvoked m.parentMsgId (t ++ "\n")]))
    else if m.msgType = "error" then
      (st, statusEvents ++ [ClientEvent.outputInvoked m.parentMsgId (errorOutputText m)])
    else if m.msgType = "status" ∧ m.executionState = some "idle" then
      if m.parentMsgId ∈ st.completionKeys then
        ({ outputKeys := st.outputKeys.erase m.parentMsgId,
           completionKeys := st.completionKeys.erase m.parentMsgId },
          statusEvents ++ [ClientEvent.completionInvoked m.parentMsgId])
      else
        ({ st with outputKeys := st.outputKeys.erase m.parentMsgId }, statusEvents)
    else
      (st, statusEvents)
  else
    (st, statusEvents)

/-- The execution-timeout callback scheduled by `executeCode`
(src/kernelClient.ts lines 392-400): if the completion callback is still
registered, both entries are removed and the promise is rejected with the
timeout error. -/
def handleTimeout (st : CallbackState) (msgId : String) : CallbackState × List ClientEvent :=
  if msgId ∈ st.completionKeys then
    ({ outputKeys := st.outputKeys.erase msgId,
       completionKeys := st.completionKeys.erase msgId },
      [ClientEvent.timeoutRejected msgId])
  else (st, [])

/-- Asynchronous occurrences the single-threaded event loop interleaves:
arrival of an iopub message, or firing of an execution-timeout timer. -/
inductive ClientAction where
  | iopub (m : IopubMsg)
  | timeoutFire (msgId : String)
deriving DecidableEq, Repr

/-- Dispatch of one event-loop occurrence. -/
def clientStep (statusCallbackSet : Bool) (st : CallbackState) (a : ClientAction) :
    CallbackState × List ClientEvent :=
  match a with
  | ClientAction.iopub m => handleIopub statusCallbackSet st m
  | ClientAction.timeoutFire msgId => handleTimeout st msgId

/-- A whole schedule of occurrences, collecting all emitted events. -/
def clientRun (statusCallbackSet : Bool) (st : CallbackState) :
    List ClientAction → CallbackState × List ClientEvent
  | [] => (st, [])
  | a :: rest =>
      let r := clientStep statusCallbackSet st a
      let r2 := clientRun statusCallbackSet r.1 rest
      (r2.1, r.2 ++ r2.2)

/-- An event that resolves the pending request `msgId`: invocation of its
completion callback, or its timeout rejection. -/
def isResolutionEvent (msgId : String) : ClientEvent → Bool
  | ClientEvent.completionInvoked j => j == msgId
  | ClientEvent.timeoutRejected j => j == msgId
  | _ => false

/-- Number of resolution events for `msgId` in an event list. -/
def resolutionCount (msgId : String) (evts : List ClientEvent) : Nat :=
  evts.countP (isResolutionEvent msgId)

/-- Number of completion-callback invocations for `msgId` in an event list. -/
def completionCount (msgId : String) (evts : List ClientEvent) : Nat :=
  evts.countP (fun e => e == ClientEvent.completionInvoked msgId)

/-! ### Helper lemmas about resolution events -/

theorem statusEventsFor_countP (scb : Bool) (m : IopubMsg) (id : String) :
    (statusEventsFor scb m).countP (isResolutionEvent id) = 0 := by
  unfold statusEventsFor
  split_ifs with h
  · simp [List.countP_cons, isResolutionEvent]
  · rfl

theorem dataEvents_countP (m : IopubMsg) (id : String) :
    (Option.elim m.dataTextPlain []
      (fun t => [ClientEvent.outputInvoked m.parentMsgId (t ++ "\n")])).countP
        (isResolutionEvent id) = 0 := by
  cases m.dataTextPlain with
  | none => rfl
  | some t => simp [List.countP_cons, isResolutionEvent]

theorem resolutionCount_append (id : String) (l1 l2 : List ClientEvent) :
    resolutionCount id (l1 ++ l2) = resolutionCount id l1 + resolutionCount id l2 :=
  List.countP_append _ _ _

theorem clientStep_nodup_output (scb : Bool) (st : CallbackState) (a : ClientAction)
    (h : st.outputKeys.Nodup) : (clientStep scb st a).1.outputKeys.Nodup := by
  cases a with
  | iopub m =>
      simp only [clientStep, handleIopub]
      split_ifs <;> first | exact h | exact h.erase _
  | timeoutFire j =>
      simp only [clientStep, handleTimeout]
      split_ifs <;> first | exact h | exact h.erase _

theorem clientStep_nodup_completion (scb : Bool) (st : CallbackState) (a : ClientAction)
    (h : st.completionKeys.Nodup) : (clientStep scb st a).1.completionKeys.Nodup := by
  cases a with
  | iopub m =>
      simp only [clientStep, handleIopub]
      split_ifs <;> first | exact h | exact h.erase _
  | timeoutFire j =>
      simp only [clientStep, handleTimeout]
      split_ifs <;> first | exact h | exact h.erase _

theorem clientStep_resolution (scb : Bool) (st : CallbackState) (a : ClientAction) (id : String) :
    (id ∉ st.completionKeys →
      id ∉ (clientStep scb st a).1.completionKeys
      ∧ resolutionCount id (clientStep scb st a).2 = 0)
    ∧ (st.completionKeys.Nodup → id ∈ st.completionKeys →
      (id ∈ (clientStep scb st a).1.completionKeys
        ∧ resolutionCount id (clientStep scb st a).2 = 0)
      ∨ (id ∉ (clientStep scb st a).1.completionKeys
        ∧ resolutionCount id (clientStep scb st a).2 = 1)) := by
  cases a with
  | iopub m =>
      simp only [clientStep, handleIopub]
      split_ifs with h1 h2 h3 h4 h5 h6
      · -- stream output
        refine ⟨fun hnm => ⟨hnm, ?_⟩, fun _ hm => Or.inl ⟨hm, ?_⟩⟩ <;>
          simp [resolutionCount, List.countP_append, statusEventsFor_countP,
            List.countP_cons, isResolutionEvent]
      · -- execute_result / display_data output
        refine ⟨fun hnm => ⟨hnm, ?_⟩, fun _ hm => Or.inl ⟨hm, ?_⟩⟩ <;>
          simp [resolutionCount, List.countP_append, statusEventsFor_countP,
            dataEvents_countP]
      · -- error output
        refine ⟨fun hnm => ⟨hnm, ?_⟩, fun _ hm => Or.inl ⟨hm, ?_⟩⟩ <;>
          simp [resolutionCount, List.countP_append, statusEventsFor_countP,
            List.countP_cons, isResolutionEvent]
      · -- status idle, completion callback present: erase both, invoke completion
        constructor
        · intro hnm
          refine ⟨fun hc => hnm (List.mem_of_mem_erase hc), ?_⟩
          have hne : m.parentMsgId ≠ id := fun he => hnm (he ▸ h6)
          simp [resolutionCount, List.countP_append, statusEventsFor_countP,
            List.countP_cons, isResolutionEvent, hne]
        · intro hnd hm
          by_cases hid : m.parentMsgId = id
          · subst hid
            exact Or.inr ⟨hnd.not_mem_erase,
              by simp [resolutionCount, List.countP_append, statusEventsFor_countP,
                List.countP_cons, isResolutionEvent]⟩
          · refine Or.inl ⟨(List.mem_erase_of_ne (Ne.symm hid)).mpr hm, ?_⟩
            simp [resolutionCount, List.countP_append, statusEventsFor_countP,
              List.countP_cons, isResolutionEvent, hid]
      · -- status idle, no completion callback: erase output entry only
        refine ⟨fun hnm => ⟨hnm, ?_⟩, fun _ hm => Or.inl ⟨hm, ?_⟩⟩ <;>
          simp [resolutionCount, statusEventsFor_countP]
      · -- registered output callback, unhandled message type
        refine ⟨fun hnm => ⟨hnm, ?_⟩, fun _ hm => Or.inl ⟨hm, ?_⟩⟩ <;>
          simp [resolutionCount, statusEventsFor_countP]
      · -- no registered output callback
        refine ⟨fun hnm => ⟨hnm, ?_⟩, fun _ hm => Or.inl ⟨hm, ?_⟩⟩ <;>
          simp [resolutionCount, statusEventsFor_countP]
  | timeoutFire j =>
      simp only [clientStep, handleTimeout]
      split_ifs with h1
      · constructor
        · intro hnm
          refine ⟨fun hc => hnm (List.mem_of_mem_erase hc), ?_⟩
          have hne : j ≠ id := fun he => hnm (he ▸ h1)
          simp [resolutionCount, List.countP_cons, isResolutionEvent, hne]
        · intro hnd hm
          by_cases hid : j = id
          · subst hid
            exact Or.inr ⟨hnd.not_mem_erase,
              by simp [resolutionCount, List.countP_cons, isResolutionEvent]⟩
          · refine Or.inl ⟨(List.mem_erase_of_ne (Ne.symm hid)).mpr hm, ?_⟩
            simp [resolutionCount, List.countP_cons, isResolutionEvent, hid]
      · exact ⟨fun hnm => ⟨hnm, rfl⟩, fun _ hm => Or.inl ⟨hm, rfl⟩⟩

theorem clientRun_nodup (scb : Bool) (acts : List ClientAction) : ∀ st : CallbackState,
    st.outputKeys.Nodup → st.completionKeys.Nodup →
    (clientRun scb st acts).1.outputKeys.Nodup
    ∧ (clientRun scb st acts).1.completionKeys.Nodup := by
  induction acts with
  | nil => exact fun st h1 h2 => ⟨h1, h2⟩
  | cons a rest ih =>
      intro st h1 h2
      simp only [clientRun]
      exact ih _ (clientStep_nodup_output scb st a h1) (clientStep_nodup_completion scb st a h2)

theorem clientRun_resolution (scb : Bool) (id : String) (acts : List ClientAction) :
    ∀ st : CallbackState, st.outputKeys.Nodup → st.completionKeys.Nodup →
    (id ∉ st.completionKeys →
      id ∉ (clientRun scb st acts).1.completionKeys
      ∧ resolutionCount id (clientRun scb st acts).2 = 0)
    ∧ (id ∈ st.completionKeys →
      (id ∈ (clientRun scb st acts).1.completionKeys
        ∧ resolutionCount id (clientRun scb st acts).2 = 0)
      ∨ (id ∉ (clientRun scb st acts).1.completionKeys
        ∧ resolutionCount id (clientRun scb st acts).2 = 1)) := by
  induction acts with
  | nil => exact fun st _ _ => ⟨fun h => ⟨h, rfl⟩, fun h => Or.inl ⟨h, rfl⟩⟩
  | cons a rest ih =>
      intro st h1 h2
      have hstep := clientStep_resolution scb st a id
      have ihs := ih (clientStep scb st a).1
        (clientStep_nodup_output scb st a h1) (clientStep_nodup_completion scb st a h2)
      simp only [clientRun, resolutionCount_append]
      constructor
      · intro hnm
        obtain ⟨hs1, hs2⟩ := hstep.1 hnm
        obtain ⟨hr1, hr2⟩ := ihs.1 hs1
        exact ⟨hr1, by omega⟩
      · intro hm
        rcases hstep.2 h2 hm with ⟨hmem1, hc1⟩ | ⟨hmem1, hc1⟩
        · rcases ihs.2 hmem1 with ⟨hm2, hc2⟩ | ⟨hm2, hc2⟩
          · exact Or.inl ⟨hm2, by omega⟩
          · exact Or.inr ⟨hm2, by omega⟩
        · obtain ⟨hr1, hr2⟩ := ihs.1 hmem1
          exact Or.inr ⟨hr1, by omega⟩

theorem clientRun_timeout_removes (scb : Bool) (id : String) (acts : List ClientAction) :
    ∀ st : CallbackState, st.outputKeys.Nodup → st.completionKeys.Nodup →
    ClientAction.timeoutFire id ∈ acts →
    id ∉ (clientRun scb st acts).1.completionKeys := by
  induction acts with
  | nil => intro st _ _ h; cases h
  | cons a rest ih =>
      intro st h1 h2 hmem
      simp only [clientRun]
      rcases List.mem_cons.mp hmem with heq | htail
      · subst heq
        have hafter : id ∉ (clientStep scb st (ClientAction.timeoutFire id)).1.completionKeys := by
          simp only [clientStep, handleTimeout]
          split_ifs with h
          · exact h2.not_mem_erase
          · exact h
        by_cases hrest : ClientAction.timeoutFire id ∈ rest
        · exact ih _ (clientStep_nodup_output scb st _ h1)
            (clientStep_nodup_completion scb st _ h2) hrest
        · exact ((clientRun_resolution scb id rest _
            (clientStep_nodup_output scb st _ h1)
            (clientStep_nodup_completion scb st _ h2)).1 hafter).1
      · exact ih _ (clientStep_nodup_output scb st a h1)
          (clientStep_nodup_completion scb st a h2) htail

theorem completionCount_le_resolutionCount (id : String) (evts : List ClientEvent) :
    completionCount id evts ≤ resolutionCount id evts := by
  apply List.countP_mono_left
  intro e _ he
  have : e = ClientEvent.completionInvoked id := by
    exact eq_of_beq he
  subst this
  simp [isResolutionEvent]

/-- Claim C2: for a pending `executeCode` request (its `msg_id` registered in
the completion registry, registries duplicate-free as `Map`s are), over any
schedule of iopub messages and timer firings the request is resolved at most
once — a completion-callback invocation and a timeout rejection together
occur at most once, and in particular the completion callback fires at most
once, so a second matching status-idle broadcast never triggers it again —
and any schedule in which the request's execution-timeout timer fires
resolves it exactly once (by whichever of the two paths got there first,
never both). -/
theorem c2_pending_request_resolved_once (scb : Bool) (st : CallbackState) (id : String)
    (acts : List ClientAction)
    (hndO : st.outputKeys.Nodup) (hndC : st.completionKeys.Nodup)
    (hmem : id ∈ st.completionKeys) :
    resolutionCount id (clientRun scb st acts).2 ≤ 1
    ∧ completionCount id (clientRun scb st acts).2 ≤ 1
    ∧ (ClientAction.timeoutFire id ∈ acts →
        resolutionCount id (clientRun scb st acts).2 = 1) := by
  have hres := (clientRun_resolution scb id acts st hndO hndC).2 hmem
  have hle : resolutionCount id (clientRun scb st acts).2 ≤ 1 := by
    rcases hres with ⟨_, hc⟩ | ⟨_, hc⟩ <;> omega
  refine ⟨hle, le_trans (completionCount_le_resolutionCount id _) hle, ?_⟩
  intro hto
  have hgone := clientRun_timeout_removes scb id acts st hndO hndC hto
  rcases hres with ⟨hm, _⟩ | ⟨_, hc⟩
  · exact absurd hm hgone
  · exact hc

theorem c2_witness :
    (["m1"] : List String).Nodup ∧ "m1" ∈ (["m1"] : List String)
    ∧ (resolutionCount "m1"
        (clientRun true { outputKeys := ["m1"], completionKeys := ["m1"] }
          [ ClientAction.iopub
              { msgType := "status", parentMsgId := "m1", executionState := some "idle",
                streamText := "", dataTextPlain := none, ename := "", evalue := "",
                traceback := none },
            ClientAction.iopub
              { msgType := "status", parentMsgId := "m1", executionState := some "idle",
                streamText := "", dataTextPlain := none, ename := "", evalue := "",
                traceback := none },
            ClientAction.timeoutFire "m1" ]).2 ≤ 1
      ∧ completionCount "m1"
          (clientRun true { outputKeys := ["m1"], completionKeys := ["m1"] }
            [ ClientAction.iopub
                { msgType := "status", parentMsgId := "m1", executionState := some "idle",
                  streamText := "", dataTextPlain := none, ename := "", evalue := "",
                  traceback := none },
              ClientAction.iopub
                { msgType := "status", parentMsgId := "m1", executionState := some "idle",
                  streamText := "", dataTextPlain := none, ename := "", evalue := "",
                  traceback := none },
              ClientAction.timeoutFire "m1" ]).2 ≤ 1
      ∧ (ClientAction.timeoutFire "m1" ∈
          [ ClientAction.iopub
              { msgType := "status", parentMsgId := "m1", executionState := some "idle",
                streamText := "", dataTextPlain := none, ename := "", evalue := "",
                traceback := none },
            ClientAction.iopub
              { msgType := "status", parentMsgId := "m1", executionState := some "idle",
                streamText := "", dataTextPlain := none, ename := "", evalue := "",
                traceback := none },
            ClientAction.timeoutFire "m1" ] →
          resolutionCount "m1"
            (clientRun true { outputKeys := ["m1"], completionKeys := ["m1"] }
              [ ClientAction.iopub
                  { msgType := "status", parentMsgId := "m1", executionState := some "idle",
                    streamText := "", dataTextPlain := none, ename := "", evalue := "",
                    traceback := none },
                ClientAction.iopub
                  { msgType := "status", parentMsgId := "m1", executionState := some "idle",
                    streamText := "", dataTextPlain := none, ename := "", evalue := "",
                    traceback := none },
                ClientAction.timeoutFire "m1" ]).2 = 1)) :=
  ⟨by decide, by decide,
    c2_pending_request_resolved_once true
      { outputKeys := ["m1"], completionKeys := ["m1"] } "m1" _
      (by decide) (by decide) (by decide)⟩

/-- Whether an iopub message is the status-idle broadcast correlated to a
given request id. -/
def matchesIdleFor (id : String) (m : IopubMsg) : Prop :=
  m.parentMsgId = id ∧ m.msgType = "status" ∧ m.executionState = some "idle"

instance (id : String) (m : IopubMsg) : Decidable (matchesIdleFor id m) := by
  unfold matchesIdleFor
  infer_instance

theorem clientStep_mem_preserved (scb : Bool) (st : CallbackState) (a : ClientAction)
    (id : String) (hm : id ∈ st.completionKeys)
    (hna : ∀ m, a = ClientAction.iopub m → ¬ matchesIdleFor id m)
    (hnt : a ≠ ClientAction.timeoutFire id) :
    id ∈ (clientStep scb st a).1.completionKeys := by
  cases a with
  | iopub m =>
      simp only [clientStep, handleIopub]
      split_ifs with h1 h2 h3 h4 h5 h6
      any_goals exact hm
      have hne : m.parentMsgId ≠ id := fun he => hna m rfl ⟨he, h5.1, h5.2⟩
      exact (List.mem_erase_of_ne (Ne.symm hne)).mpr hm
  | timeoutFire j =>
      simp only [clientStep, handleTimeout]
      split_ifs with h1
      · have hne : j ≠ id := fun he => hnt (he ▸ rfl)
        exact (List.mem_erase_of_ne (Ne.symm hne)).mpr hm
      · exact hm

theorem clientRun_mem_preserved (scb : Bool) (id : String) (acts : List ClientAction) :
    ∀ st : CallbackState, id ∈ st.completionKeys →
    (∀ m, ClientAction.iopub m ∈ acts → ¬ matchesIdleFor id m) →
    ClientAction.timeoutFire id ∉ acts →
    id ∈ (clientRun scb st acts).1.completionKeys := by
  induction acts with
  | nil => exact fun st hm _ _ => hm
  | cons a rest ih =>
      intro st hm hna hnt
      simp only [clientRun]
      refine ih _ ?_ (fun m hmm => hna m (List.mem_cons_of_mem a hmm))
        (fun hc => hnt (List.mem_cons_of_mem a hc))
      exact clientStep_mem_preserved scb st a id hm
        (fun m he => hna m (he ▸ List.mem_cons_self a rest))
        (fun he => hnt (he ▸ List.mem_cons_self a rest))

theorem clientRun_append (scb : Bool) (l1 l2 : List ClientAction) :
    ∀ st : CallbackState, clientRun scb st (l1 ++ l2) =
      ((clientRun scb (clientRun scb st l1).1 l2).1,
        (clientRun scb st l1).2 ++ (clientRun scb (clientRun scb st l1).1 l2).2) := by
  induction l1 with
  | nil => intro st; simp [clientRun]
  | cons a rest ih =>
      intro st
      simp only [List.cons_append, clientRun, List.append_eq]
      rw [ih]
      simp [List.append_assoc]

/-- Claim C4: if a schedule delivers no status-idle broadcast correlated to a
pending request's `msg_id` before that request's execution-timeout timer
fires, then at the firing the request's output and completion entries are
both removed and the promise is rejected with the timeout error. -/
theorem c4_timeout_rejects (scb : Bool) (st : CallbackState) (id : String)
    (pre : List ClientAction)
    (hndO : st.outputKeys.Nodup) (hndC : st.completionKeys.Nodup)
    (hmem : id ∈ st.completionKeys)
    (hnoidle : ∀ m, ClientAction.iopub m ∈ pre → ¬ matchesIdleFor id m)
    (hnoto : ClientAction.timeoutFire id ∉ pre) :
    id ∉ (clientRun scb st (pre ++ [ClientAction.timeoutFire id])).1.completionKeys
    ∧ id ∉ (clientRun scb st (pre ++ [ClientAction.timeoutFire id])).1.outputKeys
    ∧ ClientEvent.timeoutRejected id
        ∈ (clientRun scb st (pre ++ [ClientAction.timeoutFire id])).2 := by
  rw [clientRun_append]
  have hmid := clientRun_mem_preserved scb id pre st hmem hnoidle hnoto
  obtain ⟨hndO1, hndC1⟩ := clientRun_nodup scb pre st hndO hndC
  set st1 := (clientRun scb st pre).1 with hst1
  have hrun : clientRun scb st1 [ClientAction.timeoutFire id]
      = ((clientStep scb st1 (ClientAction.timeoutFire id)).1,
         (clientStep scb st1 (ClientAction.timeoutFire id)).2 ++ []) := rfl
  have hstep : clientStep scb st1 (ClientAction.timeoutFire id)
      = ({ outputKeys := st1.outputKeys.erase id,
           completionKeys := st1.completionKeys.erase id },
          [ClientEvent.timeoutRejected id]) := by
    simp only [clientStep, handleTimeout, if_pos hmid]
  rw [hrun, hstep]
  exact ⟨hndC1.not_mem_erase, hndO1.not_mem_erase, by simp⟩

theorem c4_witness :
    ([] : List String).Nodup ∧ (["m2"] : List String).Nodup
    ∧ "m2" ∈ (["m2"] : List String)
    ∧ (∀ m, ClientAction.iopub m ∈ ([] : List ClientAction) → ¬ matchesIdleFor "m2" m)
    ∧ ClientAction.timeoutFire "m2" ∉ ([] : List ClientAction)
    ∧ ("m2" ∉ (clientRun false { outputKeys := [], completionKeys := ["m2"] }
          ([] ++ [ClientAction.timeoutFire "m2"])).1.completionKeys
      ∧ "m2" ∉ (clientRun false { outputKeys := [], completionKeys := ["m2"] }
          ([] ++ [ClientAction.timeoutFire "m2"])).1.outputKeys
      ∧ ClientEvent.timeoutRejected "m2"
          ∈ (clientRun false { outputKeys := [], completionKeys := ["m2"] }
              ([] ++ [ClientAction.timeoutFire "m2"])).2) :=
  ⟨by decide, by decide, by decide, (by intro m hm; cases hm), (by intro hm; cases hm),
    c4_timeout_rejects false { outputKeys := [], completionKeys := ["m2"] } "m2" []
      (by decide) (by decide) (by decide)
      (by intro m hm; cases hm) (by intro hm; cases hm)⟩

/-! ## Client connection state: `executeCode`, `interrupt`, `disconnect`

Sockets are modelled by their presence (`null` or not); frames actually
handed to a socket are collected in a list.  `executeCode`'s body up to and
including the send is one synchronous step of the event loop; the timeout
callback it schedules is the `ClientAction.timeoutFire` occurrence of the
transition system above. -/

/-- The fields of `KernelClient` (src/kernelClient.ts lines 43-54) that the
claims concern. -/
structure KernelClientState where
  connectionInfo : Option ConnInfo
  shellSocket : Bool
  iopubSocket : Bool
  controlSocket : Bool
  sessionId : String
  isConnected : Bool
  callbacks : CallbackState
deriving DecidableEq, Repr

/-- State right after `new KernelClient()`: no sockets, no connection info,
empty registries. -/
def initialClientState (sessionId : String) : KernelClientState :=
  { connectionInfo := none, shellSocket := false, iopubSocket := false,
    controlSocket := false, sessionId := sessionId, isConnected := false,
    callbacks := { outputKeys := [], completionKeys := [] } }

/-- Source `disconnect` (src/kernelClient.ts lines 428-458): clears the connected
flag and both callback registries, closes and nulls all sockets.  (It does
not clear `connectionInfo`.) -/
def disconnectStep (st : KernelClientState) : KernelClientState :=
  { st with
    isConnected := false
    callbacks := { outputKeys := [], completionKeys := [] }
    shellSocket := false
    iopubSocket := false
    controlSocket := false }

/-- Source `isKernelConnected` (src/kernelClient.ts lines 421-423). -/
def isKernelConnected (st : KernelClientState) : Bool :=
  st.isConnected

/-- Source `Map.set` on the key set of a callback registry. -/
def registerKey (k : String) (l : List String) : List String :=
  if k ∈ l then l else l ++ [k]

/-- Source `executeCode` (src/kernelClient.ts lines 348-402) up to its send: rejects
with the not-connected error when the shell socket or the connection info is
absent; otherwise builds the execute-request message, registers the output
callback (when one was passed) and the completion callback under the fresh
`msg_id`, and sends the signed frame on the shell socket.  Result: new state,
frames sent, error of the returned promise-start (if any). -/
def executeCodeStep (prim : String → String → String → String)
    (st : KernelClientState) (code : String) (hasOnOutput : Bool)
    (enableOutputViewer : Bool) (msgId date : String) :
    KernelClientState × List (List String) × Option String :=
  if st.shellSocket = false ∨ st.connectionInfo = none then
    (st, [], some "Not connected to kernel")
  else
    let msg := createMessage st.sessionId msgId date "execute_request"
      (executeRequestContent code enableOutputViewer) (Json.obj [])
    let cbs0 := st.callbacks
    let cbs1 := if hasOnOutput
      then { cbs0 with outputKeys := registerKey msgId cbs0.outputKeys }
      else cbs0
    let cbs2 := { cbs1 with completionKeys := registerKey msgId cbs1.completionKeys }
    ({ st with callbacks := cbs2 },
      [sendFrame prim st.connectionInfo msg], none)

/-- Source `interrupt` (src/kernelClient.ts lines 407-416): rejects with the
not-connected error when the control socket or the connection info is absent;
otherwise sends an interrupt-request frame on the control socket. -/
def interruptStep (prim : String → String → String → String)
    (st : KernelClientState) (msgId date : String) :
    KernelClientState × List (List String) × Option String :=
  if st.controlSocket = false ∨ st.connectionInfo = none then
    (st, [], some "Not connected to kernel")
  else
    let msg := createMessage st.sessionId msgId date "interrupt_request"
      (Json.obj []) (Json.obj [])
    (st, [sendFrame prim st.connectionInfo msg], none)

/-- Claim C5: on a client that never connected (fresh instance) or has
disconnected, `executeCode` and `interrupt` each reject with the
not-connected error, send nothing on any socket, and leave the client state
(in particular both callback registries) unchanged. -/
theorem c5_not_connected_rejects (prim : String → String → String → String)
    (sessionId code : String) (hasOnOutput enableOutputViewer : Bool)
    (msgId date : String) (st : KernelClientState) :
    (executeCodeStep prim (initialClientState sessionId) code hasOnOutput
        enableOutputViewer msgId date
      = (initialClientState sessionId, [], some "Not connected to kernel"))
    ∧ (interruptStep prim (initialClientState sessionId) msgId date
      = (initialClientState sessionId, [], some "Not connected to kernel"))
    ∧ (executeCodeStep prim (disconnectStep st) code hasOnOutput
        enableOutputViewer msgId date
      = (disconnectStep st, [], some "Not connected to kernel"))
    ∧ (interruptStep prim (disconnectStep st) msgId date
      = (disconnectStep st, [], some "Not connected to kernel")) := by
  refine ⟨?_, ?_, ?_, ?_⟩ <;>
    simp [executeCodeStep, interruptStep, initialClientState, disconnectStep]

/-! ## `connect` validation (src/kernelClient.ts lines 70-137)

`connect` is modelled from the point where the connection file has been read
and JSON-parsed into an object (file I/O and `JSON.parse` are the
environment); the parsed object is the association list of its fields. -/

/-- The required descriptor fields, in the order of `validateConnectionInfo`. -/
def requiredFields : List String :=
  [ "ip", "transport", "shell_port", "iopub_port", "stdin_port",
    "control_port", "hb_port", "signature_scheme", "key" ]

/-- The port fields validated for range, in order. -/
def portFields : List String :=
  [ "shell_port", "iopub_port", "stdin_port", "control_port", "hb_port" ]

/-- Descriptor validation errors (`throw new Error(...)` kinds in
`validateConnectionInfo`). -/
inductive DescriptorError where
  | missingRequiredFields (fields : List String)
  | invalidPortNumber (field : String) (value : Option Json)

/-- A port value passing the source's check `typeof port === "number" &&
1 <= port && port <= 65535` (the loop throws on the negation). -/
def isValidPortValue : Option Json → Bool
  | some (Json.num n) => decide (1 ≤ n ∧ n ≤ 65535)
  | _ => false

/-- The port-field loop of `validateConnectionInfo` (src/kernelClient.ts
lines 92-104): the first field whose value fails the check throws. -/
def validatePortFields (info : List (String × Json)) : List String → Option DescriptorError
  | [] => none
  | f :: rest =>
      if isValidPortValue (List.lookup f info) = false then
        some (DescriptorError.invalidPortNumber f (List.lookup f info))
      else validatePortFields info rest

/-- Source `validateConnectionInfo` (src/kernelClient.ts lines 70-105), first part:
the required fields absent from the parsed object (`!(field in info)`), in
order. -/
def missingFieldsOf (info : List (String × Json)) : List String :=
  requiredFields.filter (fun f => (List.lookup f info).isNone)

/-- Source `validateConnectionInfo` continued: throw listing the missing fields when
any required field is absent, otherwise run the port-range loop. -/
def validateConnectionInfo (info : List (String × Json)) : Option DescriptorError :=
  if missingFieldsOf info ≠ [] then
    some (DescriptorError.missingRequiredFields (missingFieldsOf info))
  else validatePortFields info portFields

/-- String field extraction with JS-cast semantics (the source casts the
parsed object to `ConnectionInfo` without conversion). -/
def getStrField (info : List (String × Json)) (f : String) : String :=
  match List.lookup f info with
  | some (Json.str s) => s
  | _ => ""

/-- Numeric field extraction for the cast descriptor. -/
def getNumField (info : List (String × Json)) (f : String) : Int :=
  match List.lookup f info with
  | some (Json.num n) => n
  | _ => 0

/-- The parsed object viewed as the `ConnectionInfo` the source casts it to. -/
def toConnInfo (info : List (String × Json)) : ConnInfo :=
  { ip := getStrField info "ip",
    transport := getStrField info "transport",
    shell_port := getNumField info "shell_port",
    iopub_port := getNumField info "iopub_port",
    stdin_port := getNumField info "stdin_port",
    control_port := getNumField info "control_port",
    hb_port := getNumField info "hb_port",
    signature_scheme := getStrField info "signature_scheme",
    key := getStrField info "key" }

/-- Source `connect` from the parsed descriptor on (src/kernelClient.ts lines
110-190): assigns `connectionInfo`, validates, and only then creates and
connects the three sockets (`socketConnectOk` abstracts whether the transport
connects).  On any failure the catch block closes and nulls every socket and
clears the connected flag before re-throwing.  The middle component lists the
sockets created, in creation order. -/
def connectFromParsed (st : KernelClientState) (info : List (String × Json))
    (socketConnectOk : Bool) :
    KernelClientState × List String × Option DescriptorError :=
  let st1 := { st with connectionInfo := some (toConnInfo info) }
  match validateConnectionInfo info with
  | some e =>
      ({ st1 with
          shellSocket := false
          iopubSocket := false
          controlSocket := false
          isConnected := false }, [], some e)
  | none =>
      if socketConnectOk then
        ({ st1 with
            shellSocket := true
            iopubSocket := true
            controlSocket := true
            isConnected := true }, ["shell", "iopub", "control"], none)
      else
        ({ st1 with
            shellSocket := false
            iopubSocket := false
            controlSocket := false
            isConnected := false }, ["shell", "iopub", "control"], none)

theorem validatePortFields_fails (info : List (String × Json)) :
    ∀ fs : List String, (∃ f ∈ fs, isValidPortValue (List.lookup f info) = false) →
    validatePortFields info fs ≠ none := by
  intro fs
  induction fs with
  | nil => rintro ⟨f, hf, _⟩; cases hf
  | cons f rest ih =>
      rintro ⟨g, hg, hbad⟩ hnone
      unfold validatePortFields at hnone
      by_cases hv : isValidPortValue (List.lookup f info) = false
      · rw [if_pos hv] at hnone
        exact Option.noConfusion hnone
      · rw [if_neg hv] at hnone
        rcases List.mem_cons.mp hg with heq | htail
        · subst heq; exact hv hbad
        · exact ih ⟨g, htail, hbad⟩ hnone

/-- Claim C6: for a parsed connection descriptor with a missing required
field or a port field that is not a number in 1..65535, `connect` rejects
with a descriptor error, creates no socket, and leaves the connected
predicate false (all socket fields stay null). -/
theorem c6_invalid_descriptor_rejects (st : KernelClientState)
    (info : List (String × Json)) (socketConnectOk : Bool)
    (h : (∃ f ∈ requiredFields, (List.lookup f info).isNone = true)
       ∨ (∃ f ∈ portFields, isValidPortValue (List.lookup f info) = false)) :
    (connectFromParsed st info socketConnectOk).2.1 = []
    ∧ (connectFromParsed st info socketConnectOk).2.2.isSome = true
    ∧ isKernelConnected (connectFromParsed st info socketConnectOk).1 = false
    ∧ (connectFromParsed st info socketConnectOk).1.shellSocket = false
    ∧ (connectFromParsed st info socketConnectOk).1.iopubSocket = false
    ∧ (connectFromParsed st info socketConnectOk).1.controlSocket = false := by
  have hval : validateConnectionInfo info ≠ none := by
    unfold validateConnectionInfo
    by_cases hm : missingFieldsOf info = []
    · rw [if_neg (by simp [hm])]
      rcases h with ⟨f, hf, hnone⟩ | hport
      · exfalso
        have hmem : f ∈ missingFieldsOf info :=
          List.mem_filter.mpr ⟨hf, hnone⟩
        rw [hm] at hmem
        cases hmem
      · exact validatePortFields_fails info portFields hport
    · rw [if_pos hm]
      simp
  obtain ⟨e, he⟩ := Option.ne_none_iff_exists'.mp hval
  unfold connectFromParsed
  rw [he]
  exact ⟨rfl, rfl, rfl, rfl, rfl, rfl⟩

/-- A descriptor with every field except `key`, all ports valid. -/
def descriptorMissingKey : List (String × Json) :=
  [ ("ip", Json.str "127.0.0.1"),
    ("transport", Json.str "tcp"),
    ("shell_port", Json.num 50001),
    ("iopub_port", Json.num 50002),
    ("stdin_port", Json.num 50003),
    ("control_port", Json.num 50004),
    ("hb_port", Json.num 50005),
    ("signature_scheme", Json.str "hmac-sha256") ]

theorem c6_witness :
    ((∃ f ∈ requiredFields, (List.lookup f descriptorMissingKey).isNone = true)
      ∨ (∃ f ∈ portFields, isValidPortValue (List.lookup f descriptorMissingKey) = false))
    ∧ ((connectFromParsed (initialClientState "s") descriptorMissingKey true).2.1 = []
      ∧ (connectFromParsed (initialClientState "s") descriptorMissingKey true).2.2.isSome = true
      ∧ isKernelConnected
          (connectFromParsed (initialClientState "s") descriptorMissingKey true).1 = false
      ∧ (connectFromParsed (initialClientState "s") descriptorMissingKey true).1.shellSocket
          = false
      ∧ (connectFromParsed (initialClientState "s") descriptorMissingKey true).1.iopubSocket
          = false
      ∧ (connectFromParsed (initialClientState "s") descriptorMissingKey true).1.controlSocket
          = false) :=
  ⟨by decide,
    c6_invalid_descriptor_rejects (initialClientState "s") descriptorMissingKey true
      (by decide)⟩

/-! ## `kernelManager.ts`: process supervision and the interrupt-check timer

`setTimeout` handles are modelled as fresh numeric ids; `pendingChecks` is
the set of scheduled-and-not-yet-cancelled-or-fired stuck-kernel check
timers, and `interruptTimeoutHandle` is the field of the same name.  The
supervisor operations are steps of the single-threaded event loop; the
synchronous ones are single steps, while `startKernel`, which suspends
between its spawn and the connection-file discovery (or the failure catch),
is decomposed at those suspension points so that other operations can
interleave exactly where the event loop allows them to. -/

/-- The child-process handle (`cp.ChildProcess`): pid and whether the stdin
pipe is available. -/
structure ProcHandle where
  pid : Nat
  stdinPresent : Bool
deriving DecidableEq, Repr

/-- The fields of `KernelManager` (src/kernelManager.ts lines 22-27) the
claims concern, plus the timer bookkeeping. -/
structure MgrState where
  kernelProcess : Option ProcHandle
  connectionFile : Option String
  interruptTimeoutHandle : Option Nat
  pendingChecks : List Nat
  nextTimerId : Nat
deriving DecidableEq, Repr

/-- Observable effects of the supervisor. -/
inductive MgrEvent where
  | warningShown (msg : String)
  | stdinWritten (line : String)
  | sigtermSent
  | stuckCheckRan
deriving DecidableEq, Repr

/-- State after `new KernelManager(...)`. -/
def initialMgrState : MgrState :=
  { kernelProcess := none, connectionFile := none, interruptTimeoutHandle := none,
    pendingChecks := [], nextTimerId := 0 }

/-- Source `isRunning` (src/kernelManager.ts lines 533-535). -/
def isRunning (st : MgrState) : Bool :=
  st.kernelProcess.isSome

/-- Source `getConnectionFile` (src/kernelManager.ts lines 347-349). -/
def getConnectionFile (st : MgrState) : Option String :=
  st.connectionFile

/-- The `clearTimeout(interruptTimeoutHandle); interruptTimeoutHandle = null`
idiom shared by `interruptKernel`, `cancelInterruptTimeout` and `stopKernel`. -/
def clearInterruptHandle (st : MgrState) : MgrState :=
  match st.interruptTimeoutHandle with
  | some h =>
      { st with
        pendingChecks := st.pendingChecks.erase h
        interruptTimeoutHandle := none }
  | none => st

/-- Source `interruptKernel` (src/kernelManager.ts lines 358-392): warning no-op
without a process or stdin pipe; otherwise cancel any existing check timer,
write the INTERRUPT token, and schedule a fresh stuck-kernel check. -/
def interruptKernelStep (st : MgrState) : MgrState × List MgrEvent :=
  match st.kernelProcess with
  | none => (st, [MgrEvent.warningShown "No kernel is running"])
  | some p =>
      if p.stdinPresent = false then
        (st, [MgrEvent.warningShown "No kernel is running"])
      else
        let st1 := clearInterruptHandle st
        ({ st1 with
            pendingChecks := st1.pendingChecks ++ [st1.nextTimerId]
            interruptTimeoutHandle := some st1.nextTimerId
            nextTimerId := st1.nextTimerId + 1 },
          [MgrEvent.stdinWritten "INTERRUPT\n"])

/-- Source `cancelInterruptTimeout` (src/kernelManager.ts lines 430-436). -/
def cancelInterruptTimeoutStep (st : MgrState) : MgrState :=
  clearInterruptHandle st

/-- Source `SIGTERM_DELAY_MS` (src/kernelManager.ts line 473). -/
def SIGTERM_DELAY_MS : Nat := 2000

/-- Source `MAX_WAIT_MS` (src/kernelManager.ts line 474). -/
def MAX_WAIT_MS : Nat := 5000

/-- Source `stopKernel` (src/kernelManager.ts lines 444-516): warning no-op without
a process; otherwise write the SHUTDOWN token (when stdin exists), race the
exit event (`exitTime`, `none` when the process never exits) against the
SIGTERM nudge and the hard ceiling, then unconditionally clear the process
handle, the connection file and any pending interrupt check.  The last
component is the time at which the call returns. -/
def stopKernelStep (st : MgrState) (exitTime : Option Nat) :
    MgrState × List MgrEvent × Nat :=
  match st.kernelProcess with
  | none => (st, [MgrEvent.warningShown "No kernel is running"], 0)
  | some p =>
      let shutdownEvents :=
        if p.stdinPresent then [MgrEvent.stdinWritten "SHUTDOWN\n"] else []
      let sigtermEvents :=
        match exitTime with
        | some t => if SIGTERM_DELAY_MS < t then [MgrEvent.sigtermSent] else []
        | none => [MgrEvent.sigtermSent]
      let settleTime :=
        match exitTime with
        | some t => min t MAX_WAIT_MS
        | none => MAX_WAIT_MS
      let st1 := clearInterruptHandle
        { st with
          kernelProcess := none
          connectionFile := none }
      (st1, shutdownEvents ++ sigtermEvents, settleTime)

/-- Firing of a scheduled stuck-kernel check timer: only a live (scheduled,
not cancelled) timer can fire; the handle field is not nulled by the firing
(the source's callback does not reset it). -/
def fireCheckStep (st : MgrState) (tid : Nat) : MgrState × List MgrEvent :=
  if tid ∈ st.pendingChecks then
    ({ st with pendingChecks := st.pendingChecks.erase tid }, [MgrEvent.stuckCheckRan])
  else (st, [])

/-- Source `startKernel` up to its spawn (src/kernelManager.ts lines
140-185): warning no-op when already running; otherwise the child process is
spawned and assigned to `kernelProcess` before the function suspends
awaiting `waitForConnectionFile` — so the process handle is already visible
to other event-loop turns (in particular `interruptKernel`) while the start
is still pending. -/
def startKernelSpawnStep (st : MgrState) (p : ProcHandle) :
    MgrState × List MgrEvent :=
  match st.kernelProcess with
  | some _ => (st, [MgrEvent.warningShown "Kernel is already running"])
  | none => ({ st with kernelProcess := some p }, [])

/-- Source `waitForConnectionFile` resolving (src/kernelManager.ts lines
245-252): the discovered path is stored and `startKernel` returns. -/
def startKernelFoundStep (st : MgrState) (connFile : String) :
    MgrState × List MgrEvent :=
  match st.kernelProcess with
  | some _ => ({ st with connectionFile := some connFile }, [])
  | none => (st, [])

/-- Source `startKernel` failure catch (src/kernelManager.ts lines 204-213):
the spawned process is killed and the handle nulled.  Neither the connection
file nor `interruptTimeoutHandle` nor any scheduled stuck-kernel check is
touched, so a check scheduled by an `interruptKernel` that ran during the
pending start is orphaned here. -/
def startKernelAbortStep (st : MgrState) : MgrState × List MgrEvent :=
  match st.kernelProcess with
  | some _ => ({ st with kernelProcess := none }, [])
  | none => (st, [])

/-- Supervisor occurrences on the single-threaded event loop; `startKernel`
contributes its spawn, its connection-file discovery and its failure catch
as separate occurrences, since it suspends between them. -/
inductive MgrOp where
  | startSpawn (p : ProcHandle)
  | startFound (connFile : String)
  | startAbort
  | interrupt
  | cancelInterrupt
  | stop (exitTime : Option Nat)
  | fireCheck (tid : Nat)
deriving DecidableEq, Repr

def mgrStep (st : MgrState) : MgrOp → MgrState × List MgrEvent
  | MgrOp.startSpawn p => startKernelSpawnStep st p
  | MgrOp.startFound f => startKernelFoundStep st f
  | MgrOp.startAbort => startKernelAbortStep st
  | MgrOp.interrupt => interruptKernelStep st
  | MgrOp.cancelInterrupt => (cancelInterruptTimeoutStep st, [])
  | MgrOp.stop et => ((stopKernelStep st et).1, (stopKernelStep st et).2.1)
  | MgrOp.fireCheck t => fireCheckStep st t

def mgrRun (st : MgrState) : List MgrOp → MgrState × List MgrEvent
  | [] => (st, [])
  | op :: rest =>
      let r := mgrStep st op
      let r2 := mgrRun r.1 rest
      (r2.1, r.2 ++ r2.2)

/-- Reachability invariant of the supervisor: the live stuck-check timers
are exactly the one referenced by `interruptTimeoutHandle` (or none), and
handles are always below the fresh-id counter.  No conjunct ties
`kernelProcess` to the timers: a check scheduled during a pending start
survives the start's failure catch with the process already nulled. -/
def MgrInv (st : MgrState) : Prop :=
  (st.pendingChecks = []
    ∨ ∃ h, st.interruptTimeoutHandle = some h ∧ st.pendingChecks = [h])
  ∧ (∀ h, st.interruptTimeoutHandle = some h → h < st.nextTimerId)

theorem clearInterruptHandle_handle_none (st : MgrState) :
    (clearInterruptHandle st).interruptTimeoutHandle = none := by
  cases hh : st.interruptTimeoutHandle <;> simp [clearInterruptHandle, hh]

theorem clearInterruptHandle_pend (st : MgrState)
    (h1 : st.pendingChecks = []
      ∨ ∃ h, st.interruptTimeoutHandle = some h ∧ st.pendingChecks = [h]) :
    (clearInterruptHandle st).pendingChecks = [] := by
  rcases h1 with hp | ⟨h, hh, hp⟩
  · cases hhh : st.interruptTimeoutHandle <;> simp [clearInterruptHandle, hhh, hp]
  · simp [clearInterruptHandle, hh, hp, List.erase_cons]

theorem clearInterruptHandle_frame (st : MgrState) :
    (clearInterruptHandle st).kernelProcess = st.kernelProcess
    ∧ (clearInterruptHandle st).connectionFile = st.connectionFile
    ∧ (clearInterruptHandle st).nextTimerId = st.nextTimerId := by
  cases hh : st.interruptTimeoutHandle <;> simp [clearInterruptHandle, hh]

theorem mgrStep_inv (st : MgrState) (op : MgrOp) (hinv : MgrInv st) :
    MgrInv (mgrStep st op).1 := by
  obtain ⟨h1, h4⟩ := hinv
  cases op with
  | startSpawn p =>
      cases hp : st.kernelProcess with
      | some q =>
          simp only [mgrStep, startKernelSpawnStep, hp]
          exact ⟨h1, h4⟩
      | none =>
          simp only [mgrStep, startKernelSpawnStep, hp]
          exact ⟨h1, h4⟩
  | startFound f =>
      cases hp : st.kernelProcess with
      | some q =>
          simp only [mgrStep, startKernelFoundStep, hp]
          exact ⟨h1, h4⟩
      | none =>
          simp only [mgrStep, startKernelFoundStep, hp]
          exact ⟨h1, h4⟩
  | startAbort =>
      cases hp : st.kernelProcess with
      | some q =>
          simp only [mgrStep, startKernelAbortStep, hp]
          exact ⟨h1, h4⟩
      | none =>
          simp only [mgrStep, startKernelAbortStep, hp]
          exact ⟨h1, h4⟩
  | interrupt =>
      cases hp : st.kernelProcess with
      | none =>
          simp only [mgrStep, interruptKernelStep, hp]
          exact ⟨h1, h4⟩
      | some p =>
          by_cases hs : p.stdinPresent = false
          · simp only [mgrStep, interruptKernelStep, hp, if_pos hs]
            exact ⟨h1, h4⟩
          · simp only [mgrStep, interruptKernelStep, hp, if_neg hs]
            have hpend := clearInterruptHandle_pend st h1
            refine ⟨Or.inr ⟨(clearInterruptHandle st).nextTimerId, rfl, ?_⟩, ?_⟩
            · rw [hpend]; rfl
            · intro h hcon
              have heq : h = (clearInterruptHandle st).nextTimerId := by
                injection hcon with hh
                exact hh.symm
              rw [heq]
              exact Nat.lt_succ_self _
  | cancelInterrupt =>
      have hpend := clearInterruptHandle_pend st h1
      have hhandle := clearInterruptHandle_handle_none st
      refine ⟨Or.inl hpend, ?_⟩
      intro h hcon
      rw [show (mgrStep st MgrOp.cancelInterrupt).1 = clearInterruptHandle st from rfl,
        hhandle] at hcon
      exact Option.noConfusion hcon
  | stop et =>
      cases hp : st.kernelProcess with
      | none =>
          simp only [mgrStep, stopKernelStep, hp]
          exact ⟨h1, h4⟩
      | some p =>
          simp only [mgrStep, stopKernelStep, hp]
          have h1m : ({ st with kernelProcess := none, connectionFile := none }
              : MgrState).pendingChecks = []
              ∨ ∃ h, ({ st with kernelProcess := none, connectionFile := none }
                : MgrState).interruptTimeoutHandle = some h
                ∧ ({ st with kernelProcess := none, connectionFile := none }
                  : MgrState).pendingChecks = [h] := h1
          have hpend := clearInterruptHandle_pend _ h1m
          have hhandle := clearInterruptHandle_handle_none
            ({ st with kernelProcess := none, connectionFile := none } : MgrState)
          refine ⟨Or.inl hpend, ?_⟩
          intro h hcon
          rw [hhandle] at hcon
          exact Option.noConfusion hcon
  | fireCheck t =>
      by_cases ht : t ∈ st.pendingChecks
      · simp only [mgrStep, fireCheckStep, if_pos ht]
        rcases h1 with hp | ⟨h, hh, hp⟩
        · rw [hp] at ht; cases ht
        · have hteq : t = h := by
            rw [hp] at ht
            simpa using ht
          subst hteq
          have hpend : st.pendingChecks.erase t = [] := by
            rw [hp, List.erase_cons_head]
          exact ⟨Or.inl hpend, h4⟩
      · simp only [mgrStep, fireCheckStep, if_neg ht]
        exact ⟨h1, h4⟩

theorem initialMgrState_inv : MgrInv initialMgrState :=
  ⟨Or.inl rfl, fun _ hcon => Option.noConfusion hcon⟩

theorem mgrRun_inv (ops : List MgrOp) : ∀ st : MgrState, MgrInv st →
    MgrInv (mgrRun st ops).1 := by
  induction ops with
  | nil => exact fun st h => h
  | cons op rest ih =>
      intro st h
      simp only [mgrRun]
      exact ih _ (mgrStep_inv st op h)

/-- Claim C7: `stopKernel` on a running kernel returns once the race between
the exit event and the timers settles — at the latest when the hard ceiling
`MAX_WAIT_MS` elapses, for every exit behaviour including a process that
never exits — and afterwards the process handle and the connection-file path
are cleared unconditionally, so `isRunning` is false and `getConnectionFile`
is null; with no kernel running it is a no-op that shows a warning. -/
theorem c7_stop_kernel_settles_and_clears (st : MgrState) (exitTime : Option Nat) :
    (stopKernelStep st exitTime).2.2 ≤ MAX_WAIT_MS
    ∧ (st.kernelProcess.isSome = true →
        (stopKernelStep st exitTime).1.kernelProcess = none
        ∧ (stopKernelStep st exitTime).1.connectionFile = none
        ∧ isRunning (stopKernelStep st exitTime).1 = false
        ∧ getConnectionFile (stopKernelStep st exitTime).1 = none)
    ∧ (st.kernelProcess = none →
        (stopKernelStep st exitTime).1 = st
        ∧ (stopKernelStep st exitTime).2.1
            = [MgrEvent.warningShown "No kernel is running"]) := by
  cases hp : st.kernelProcess with
  | none =>
      refine ⟨?_, ?_, ?_⟩
      · simp [stopKernelStep, hp, MAX_WAIT_MS]
      · intro hcon
        simp at hcon
      · intro _
        exact ⟨by simp [stopKernelStep, hp], by simp [stopKernelStep, hp]⟩
  | some p =>
      have hmid : ({ st with kernelProcess := none, connectionFile := none }
          : MgrState).kernelProcess = none := rfl
      have hframe := clearInterruptHandle_frame
        ({ st with kernelProcess := none, connectionFile := none } : MgrState)
      refine ⟨?_, ?_, ?_⟩
      · cases exitTime with
        | none => simp [stopKernelStep, hp]
        | some t => simp [stopKernelStep, hp]
      · intro _
        have hk : (stopKernelStep st exitTime).1.kernelProcess = none := by
          simp only [stopKernelStep, hp]
          rw [hframe.1]
        have hc : (stopKernelStep st exitTime).1.connectionFile = none := by
          simp only [stopKernelStep, hp]
          rw [hframe.2.1]
        exact ⟨hk, hc, by simp [isRunning, hk], by simp [getConnectionFile, hc]⟩
      · intro hcon
        exact Option.noConfusion hcon

theorem c7_witness :
    (({ kernelProcess := some { pid := 7, stdinPresent := true },
        connectionFile := some "kernel-7.json", interruptTimeoutHandle := some 0,
        pendingChecks := [0], nextTimerId := 1 } : MgrState).kernelProcess.isSome = true)
    ∧ (initialMgrState.kernelProcess = none)
    ∧ ((stopKernelStep
          { kernelProcess := some { pid := 7, stdinPresent := true },
            connectionFile := some "kernel-7.json", interruptTimeoutHandle := some 0,
            pendingChecks := [0], nextTimerId := 1 } none).2.2 ≤ MAX_WAIT_MS
      ∧ (stopKernelStep
          { kernelProcess := some { pid := 7, stdinPresent := true },
            connectionFile := some "kernel-7.json", interruptTimeoutHandle := some 0,
            pendingChecks := [0], nextTimerId := 1 } none).1.kernelProcess = none
      ∧ isRunning (stopKernelStep
          { kernelProcess := some { pid := 7, stdinPresent := true },
            connectionFile := some "kernel-7.json", interruptTimeoutHandle := some 0,
            pendingChecks := [0], nextTimerId := 1 } none).1 = false
      ∧ (stopKernelStep initialMgrState (some 100)).1 = initialMgrState
      ∧ (stopKernelStep initialMgrState (some 100)).2.1
          = [MgrEvent.warningShown "No kernel is running"]) :=
  ⟨rfl, rfl,
    (c7_stop_kernel_settles_and_clears
        { kernelProcess := some { pid := 7, stdinPresent := true },
          connectionFile := some "kernel-7.json", interruptTimeoutHandle := some 0,
          pendingChecks := [0], nextTimerId := 1 } none).1,
    ((c7_stop_kernel_settles_and_clears
        { kernelProcess := some { pid := 7, stdinPresent := true },
          connectionFile := some "kernel-7.json", interruptTimeoutHandle := some 0,
          pendingChecks := [0], nextTimerId := 1 } none).2.1 (by decide)).1,
    ((c7_stop_kernel_settles_and_clears
        { kernelProcess := some { pid := 7, stdinPresent := true },
          connectionFile := some "kernel-7.json", interruptTimeoutHandle := some 0,
          pendingChecks := [0], nextTimerId := 1 } none).2.1 (by decide)).2.2.1,
    ((c7_stop_kernel_settles_and_clears initialMgrState (some 100)).2.2 rfl).1,
    ((c7_stop_kernel_settles_and_clears initialMgrState (some 100)).2.2 rfl).2⟩

/-- Claim C8: in every reachable supervisor state at most one stuck-kernel
check timer is live; an `interruptKernel` on a running kernel first cancels
the previously pending check (the old handle's timer is no longer live
afterwards) and schedules exactly its own fresh one; and
`cancelInterruptTimeout` leaves no live check, so a check timer can no longer
fire after it. -/
theorem c8_one_pending_interrupt_check (ops : List MgrOp) :
    (mgrRun initialMgrState ops).1.pendingChecks.length ≤ 1
    ∧ (∀ p, (mgrRun initialMgrState ops).1.kernelProcess = some p →
        p.stdinPresent = true →
        (interruptKernelStep (mgrRun initialMgrState ops).1).1.pendingChecks
          = [(mgrRun initialMgrState ops).1.nextTimerId]
        ∧ (∀ h, (mgrRun initialMgrState ops).1.interruptTimeoutHandle = some h →
            h ∉ (interruptKernelStep (mgrRun initialMgrState ops).1).1.pendingChecks))
    ∧ (cancelInterruptTimeoutStep (mgrRun initialMgrState ops).1).pendingChecks = []
    ∧ (∀ t, (fireCheckStep (cancelInterruptTimeoutStep (mgrRun initialMgrState ops).1) t).2
        = []) := by
  obtain ⟨h1, h4⟩ := mgrRun_inv ops initialMgrState initialMgrState_inv
  have hcancel : (cancelInterruptTimeoutStep (mgrRun initialMgrState ops).1).pendingChecks
      = [] := clearInterruptHandle_pend _ h1
  refine ⟨?_, ?_, hcancel, ?_⟩
  · rcases h1 with hp | ⟨h, _, hp⟩ <;> simp [hp]
  · intro p hp hs
    have hframe := clearInterruptHandle_frame (mgrRun initialMgrState ops).1
    have hpend := clearInterruptHandle_pend (mgrRun initialMgrState ops).1 h1
    have hstep : (interruptKernelStep (mgrRun initialMgrState ops).1).1.pendingChecks
        = [(mgrRun initialMgrState ops).1.nextTimerId] := by
      simp only [interruptKernelStep, hp]
      rw [if_neg (by rw [hs]; simp)]
      rw [hpend, hframe.2.2]
      rfl
    refine ⟨hstep, ?_⟩
    intro h hh hmem
    rw [hstep] at hmem
    have hlt := h4 h hh
    have : h = (mgrRun initialMgrState ops).1.nextTimerId := by simpa using hmem
    omega
  · intro t
    unfold fireCheckStep
    rw [if_neg (by rw [hcancel]; simp)]

theorem c8_witness :
    ((mgrRun initialMgrState
        [MgrOp.startSpawn { pid := 3, stdinPresent := true }, MgrOp.interrupt]).1.pendingChecks.length ≤ 1)
    ∧ ((mgrRun initialMgrState
        [MgrOp.startSpawn { pid := 3, stdinPresent := true },
          MgrOp.interrupt]).1.kernelProcess = some { pid := 3, stdinPresent := true })
    ∧ ((interruptKernelStep (mgrRun initialMgrState
        [MgrOp.startSpawn { pid := 3, stdinPresent := true },
          MgrOp.interrupt]).1).1.pendingChecks
        = [(mgrRun initialMgrState
            [MgrOp.startSpawn { pid := 3, stdinPresent := true },
              MgrOp.interrupt]).1.nextTimerId])
    ∧ ((0 : Nat) ∉ (interruptKernelStep (mgrRun initialMgrState
        [MgrOp.startSpawn { pid := 3, stdinPresent := true },
          MgrOp.interrupt]).1).1.pendingChecks)
    ∧ ((cancelInterruptTimeoutStep (mgrRun initialMgrState
        [MgrOp.startSpawn { pid := 3, stdinPresent := true },
          MgrOp.interrupt]).1).pendingChecks = []) :=
  ⟨(c8_one_pending_interrupt_check
      [MgrOp.startSpawn { pid := 3, stdinPresent := true }, MgrOp.interrupt]).1,
    by decide,
    ((c8_one_pending_interrupt_check
      [MgrOp.startSpawn { pid := 3, stdinPresent := true }, MgrOp.interrupt]).2.1
        { pid := 3, stdinPresent := true } (by decide) (by decide)).1,
    ((c8_one_pending_interrupt_check
      [MgrOp.startSpawn { pid := 3, stdinPresent := true }, MgrOp.interrupt]).2.1
        { pid := 3, stdinPresent := true } (by decide) (by decide)).2 0 (by decide),
    (c8_one_pending_interrupt_check
      [MgrOp.startSpawn { pid := 3, stdinPresent := true }, MgrOp.interrupt]).2.2.1⟩

/-- Claim C9: `interruptKernel` with no kernel process (or with its stdin
pipe absent) is a warning no-op: it returns normally with the state
unchanged, writes nothing to stdin, and schedules no stuck-kernel check. -/
theorem c9_interrupt_without_kernel_noop (st : MgrState)
    (h : st.kernelProcess = none
      ∨ ∃ p, st.kernelProcess = some p ∧ p.stdinPresent = false) :
    (interruptKernelStep st).1 = st
    ∧ (interruptKernelStep st).2 = [MgrEvent.warningShown "No kernel is running"]
    ∧ (∀ line, MgrEvent.stdinWritten line ∉ (interruptKernelStep st).2) := by
  have hmain : (interruptKernelStep st).1 = st
      ∧ (interruptKernelStep st).2 = [MgrEvent.warningShown "No kernel is running"] := by
    rcases h with hp | ⟨p, hp, hs⟩
    · simp [interruptKernelStep, hp]
    · simp [interruptKernelStep, hp, hs]
  refine ⟨hmain.1, hmain.2, ?_⟩
  intro line hmem
  rw [hmain.2] at hmem
  simp at hmem

theorem c9_witness :
    (initialMgrState.kernelProcess = none
      ∨ ∃ p, initialMgrState.kernelProcess = some p ∧ p.stdinPresent = false)
    ∧ ((interruptKernelStep initialMgrState).1 = initialMgrState
      ∧ (interruptKernelStep initialMgrState).2
          = [MgrEvent.warningShown "No kernel is running"]) :=
  ⟨Or.inl rfl,
    (c9_interrupt_without_kernel_noop initialMgrState (Or.inl rfl)).1,
    (c9_interrupt_without_kernel_noop initialMgrState (Or.inl rfl)).2.1⟩

/-- Claim C10 counterexample: the claim — `stopKernel` cancels any pending
stuck-kernel interrupt-check timer before returning, so after it resolves
the check never fires — is false of the program.  Trace: `startKernel`
spawns the process and suspends awaiting the connection file;
`interruptKernel`, run during the pending start, schedules check timer 0;
the start fails and its catch nulls `kernelProcess` without clearing the
timer; `stopKernel` then takes its no-kernel warning path and returns
without cancelling anything, and the orphaned check still fires afterwards. -/
theorem c10_counterexample :
    (stopKernelStep (mgrRun initialMgrState
        [ MgrOp.startSpawn { pid := 1, stdinPresent := true },
          MgrOp.interrupt, MgrOp.startAbort ]).1 (some 100)).1.pendingChecks = [0]
    ∧ (stopKernelStep (mgrRun initialMgrState
        [ MgrOp.startSpawn { pid := 1, stdinPresent := true },
          MgrOp.interrupt, MgrOp.startAbort ]).1 (some 100)).2.1
      = [MgrEvent.warningShown "No kernel is running"]
    ∧ (fireCheckStep (stopKernelStep (mgrRun initialMgrState
        [ MgrOp.startSpawn { pid := 1, stdinPresent := true },
          MgrOp.interrupt, MgrOp.startAbort ]).1 (some 100)).1 0).2
      = [MgrEvent.stuckCheckRan] := by
  refine ⟨?_, ?_, ?_⟩ <;> decide

/-- Claim C10 (amended): when a kernel process is running at the call — the
only case in which `stopKernel` does more than warn — `stopKernel` cancels
any pending stuck-kernel interrupt-check timer before returning, so from
the state it leaves no stuck-kernel check can fire, regardless of any
`interruptKernel` call made earlier.  (On the no-kernel warning path nothing
is cancelled, and a check orphaned by a failed start can still fire: see the
counterexample.) -/
theorem c10_stop_running_kernel_cancels_check (ops : List MgrOp)
    (exitTime : Option Nat) (p : ProcHandle)
    (hp : (mgrRun initialMgrState ops).1.kernelProcess = some p) :
    (stopKernelStep (mgrRun initialMgrState ops).1 exitTime).1.pendingChecks = []
    ∧ (stopKernelStep (mgrRun initialMgrState ops).1 exitTime).1.interruptTimeoutHandle
        = none
    ∧ (∀ t, (fireCheckStep (stopKernelStep (mgrRun initialMgrState ops).1 exitTime).1 t).2
        = []) := by
  obtain ⟨h1, h4⟩ := mgrRun_inv ops initialMgrState initialMgrState_inv
  have h1m : ({ (mgrRun initialMgrState ops).1 with
        kernelProcess := none, connectionFile := none } : MgrState).pendingChecks = []
      ∨ ∃ h, ({ (mgrRun initialMgrState ops).1 with
          kernelProcess := none, connectionFile := none }
            : MgrState).interruptTimeoutHandle = some h
        ∧ ({ (mgrRun initialMgrState ops).1 with
            kernelProcess := none, connectionFile := none }
              : MgrState).pendingChecks = [h] := h1
  have hpend : (stopKernelStep (mgrRun initialMgrState ops).1 exitTime).1.pendingChecks
      = [] := by
    simp only [stopKernelStep, hp]
    exact clearInterruptHandle_pend _ h1m
  have hhandle : (stopKernelStep (mgrRun initialMgrState ops).1
      exitTime).1.interruptTimeoutHandle = none := by
    simp only [stopKernelStep, hp]
    exact clearInterruptHandle_handle_none _
  refine ⟨hpend, hhandle, ?_⟩
  intro t
  unfold fireCheckStep
  rw [if_neg (by rw [hpend]; simp)]

theorem c10_witness :
    ((mgrRun initialMgrState
        [ MgrOp.startSpawn { pid := 2, stdinPresent := true },
          MgrOp.interrupt ]).1.kernelProcess
      = some { pid := 2, stdinPresent := true })
    ∧ ((stopKernelStep (mgrRun initialMgrState
          [ MgrOp.startSpawn { pid := 2, stdinPresent := true },
            MgrOp.interrupt ]).1 (some 10)).1.pendingChecks = []
      ∧ (stopKernelStep (mgrRun initialMgrState
          [ MgrOp.startSpawn { pid := 2, stdinPresent := true },
            MgrOp.interrupt ]).1 (some 10)).1.interruptTimeoutHandle = none) :=
  ⟨by decide,
    (c10_stop_running_kernel_cancels_check
        [ MgrOp.startSpawn { pid := 2, stdinPresent := true }, MgrOp.interrupt ]
        (some 10) { pid := 2, stdinPresent := true } (by decide)).1,
    (c10_stop_running_kernel_cancels_check
        [ MgrOp.startSpawn { pid := 2, stdinPresent := true }, MgrOp.interrupt ]
        (some 10) { pid := 2, stdinPresent := true } (by decide)).2.1⟩
